import Mathlib

/-!
Verification development for the asynchronous comment-processing subsystem
(`src/utils/queue.js` together with the enqueue/status routes in
`src/routes/videos.js`) of the 2025-Summer-Bootcamp-TeamF backend.

Modelling conventions:
* The relational store is explicit state: the `"Comment"` table is a list of
  `CommentRecord`s (the migration `Comment_youtube_comment_id_key` makes
  `youtube_comment_id` globally unique), the processed video's
  `comment_classified_at` column is an `Option Nat` watermark, and the
  `"Comment_summary"` table is an append-only list.
* `NOW()` is a `Nat` parameter `now` supplied to each job run.
* The external classification service call (`axios.post`) is a parameter of
  type `Except Unit α`: `Except.error` models a thrown network/HTTP error,
  which the handler's outer `catch` rethrows so the queue marks the job
  failed.
* The external metadata source (`axios.get` against the YouTube API) is an
  oracle `String → Option YtMeta`; `none` models both a thrown request error
  and a response with no `items[0].snippet`, which the per-comment code
  treats identically (log and `continue`).
* `JSON.parse` is a JS runtime builtin and is abstracted as an oracle
  `String → Option Json` (`none` = the parse throws); `JSON.stringify` is
  deterministic and is modelled concretely by `stringify` below.
* JS numbers are modelled as exact rationals (`ℚ`); numeric JSON leaves are
  elided from the `Json` universe because their float formatting is outside
  the embedding.
* `pool.query` writes are modelled as succeeding; the explicit failure modes
  the claims mention (service call, metadata lookup) carry oracles.
-/

/-- JSON values as produced by the remote workflow engine (numeric leaves
elided, see the header comment). An object is its field list in insertion
order; field names are assumed distinct, as they are for any object that was
built by `JSON.parse` or a JS object literal. -/
inductive Json where
  | null : Json
  | bool : Bool → Json
  | str : String → Json
  | arr : List Json → Json
  | obj : List (String × Json) → Json
deriving Repr

/-- Lower-case hexadecimal digit, as used by JS string escapes. -/
def hexDigit (n : Nat) : Char :=
  if n < 10 then Char.ofNat (48 + n) else Char.ofNat (87 + n)

/-- Escape of a single character inside a JSON string literal, following
`JSON.stringify` (quote, backslash, the short control escapes, and `\u00xx`
for the remaining control characters). -/
def escapeJsonChar (c : Char) : String :=
  if c = '"' then "\\\""
  else if c = '\\' then "\\\\"
  else if c = '\x08' then "\\b"
  else if c = '\x09' then "\\t"
  else if c = '\x0a' then "\\n"
  else if c = '\x0c' then "\\f"
  else if c = '\x0d' then "\\r"
  else if c.toNat < 32 then
    "\\u00" ++ String.singleton (hexDigit (c.toNat / 16))
      ++ String.singleton (hexDigit (c.toNat % 16))
  else String.singleton c

/-- JSON string literal for `s`, as `JSON.stringify` renders it. -/
def quoteJsonString (s : String) : String :=
  "\"" ++ String.join (s.toList.map escapeJsonChar) ++ "\""

mutual

/-- The serialization `JSON.stringify` of a JSON value. -/
def stringify : Json → String
  | Json.null => "null"
  | Json.bool true => "true"
  | Json.bool false => "false"
  | Json.str s => quoteJsonString s
  | Json.arr xs => "[" ++ stringifyArr xs ++ "]"
  | Json.obj fs => "\x7b" ++ stringifyObj fs ++ "\x7d"

/-- Comma-separated serialization of array elements. -/
def stringifyArr : List Json → String
  | [] => ""
  | [x] => stringify x
  | x :: y :: rest => stringify x ++ "," ++ stringifyArr (y :: rest)

/-- Comma-separated serialization of object fields. -/
def stringifyObj : List (String × Json) → String
  | [] => ""
  | [(k, v)] => quoteJsonString k ++ ":" ++ stringify v
  | (k, v) :: p :: rest =>
      quoteJsonString k ++ ":" ++ stringify v ++ "," ++ stringifyObj (p :: rest)

end

/-- JS property access `v.k`. The outer `Option` is `none` when the access
throws a `TypeError` (receiver is `null`); the inner `Option` is `none` when
the property is `undefined` (absent field, or property access on a
primitive/array). -/
def jsProp : Json → String → Option (Option Json)
  | Json.null, _ => none
  | Json.obj fs, k => some ((fs.find? (fun p => p.1 == k)).map (·.2))
  | _, _ => some none

/-- JS truthiness of a JSON value (`null`, `false` and `""` are falsy). -/
def jsTruthy : Json → Bool
  | Json.null => false
  | Json.bool b => b
  | Json.str s => s ≠ ""
  | Json.arr _ => true
  | Json.obj _ => true

/-- A row of the `"Comment"` table (Prisma model `Comment`); the migration in
`src/unnamed/part_003` adds the unique index `Comment_youtube_comment_id_key`
on `youtube_comment_id`. -/
structure CommentRecord where
  youtube_comment_id : String
  author_name : String
  author_id : Option String
  comment : String
  comment_type : Int
  comment_date : String
  is_parent : Bool
  video_id : String
  is_filtered : Bool
  created_at : Nat
  updated_at : Nat
deriving Repr, DecidableEq

/-- The snippet fields of a YouTube `comments.list` item that the worker
reads (`src/utils/queue.js` lines 117-128). -/
structure YtMeta where
  authorDisplayName : String
  authorChannelId : Option String
  publishedAt : String
  parentId : Option String
deriving Repr, DecidableEq

/-- One entry of the classification response consumed by the classify
handler: `c : \x7b id, text, comment_type \x7d`. -/
structure ClassifyEntry where
  id : String
  text : String
  comment_type : Int
deriving Repr, DecidableEq

/-- One entry of the filtering response consumed by the filter handler:
`c : \x7b id, text, is_filtered \x7d` (`is_filtered` arrives as a number and
is compared with `=== 1`). -/
structure FilterEntry where
  id : String
  text : String
  is_filtered : Int
deriving Repr, DecidableEq

/-- A row of the `"Comment_summary"` table as the analysis handler inserts it
(`src/utils/queue.js` lines 79-84). `summary_title` keeps the JS value passed
to `pool.query`. -/
structure SummaryRow where
  video_id : String
  summary : String
  summary_title : Json
  positive_ratio : Option ℚ
  created_at : Nat
deriving Repr

/-- The slice of the relational store the worker touches: the `"Comment"`
table, the processed video's `comment_classified_at` column, and the
`"Comment_summary"` table. -/
structure Store where
  comments : List CommentRecord
  watermark : Option Nat
  summaries : List SummaryRow
deriving Repr

/-- Outcome of one job run: `completed` with the handler's return data, or
`failed` when the handler threw (the outer catch rethrows, so the queue
records failure). Both carry the store state left behind. -/
inductive JobResult (α : Type) where
  | completed : Store → α → JobResult α
  | failed : Store → JobResult α
deriving Repr

/-- The classify handler's per-comment write (`src/utils/queue.js` lines
137-163): `INSERT ... ON CONFLICT (youtube_comment_id) DO UPDATE` replacing
every column except the key and `created_at`, with `updated_at = NOW()`.
`r` carries the VALUES tuple (`created_at = updated_at = now`). -/
def upsertComment (t : List CommentRecord) (r : CommentRecord) : List CommentRecord :=
  if t.any (fun x => x.youtube_comment_id == r.youtube_comment_id) then
    t.map (fun x =>
      if x.youtube_comment_id == r.youtube_comment_id then
        { r with created_at := x.created_at }
      else x)
  else t ++ [r]

/-- The classify handler's comment loop (`src/utils/queue.js` lines 110-173):
for each response entry, look up metadata (failure or a missing
`items[0].snippet` skips the entry) and upsert a row built from the entry's
`text`/`comment_type` and the metadata. Returns the resulting table and the
number of rows persisted (`results.length`; the upsert's `RETURNING *` always
yields a row, so every non-skipped entry counts). -/
def classifyLoop (v : String) (meta : String → Option YtMeta) (now : Nat) :
    List ClassifyEntry → List CommentRecord → List CommentRecord × Nat
  | [], t => (t, 0)
  | c :: rest, t =>
    match meta c.id with
    | none => classifyLoop v meta now rest t
    | some m =>
      let r : CommentRecord :=
        { youtube_comment_id := c.id
          author_name := m.authorDisplayName
          author_id := m.authorChannelId
          comment := c.text
          comment_type := c.comment_type
          comment_date := m.publishedAt
          is_parent := m.parentId.isNone
          video_id := v
          is_filtered := false
          created_at := now
          updated_at := now }
      let res := classifyLoop v meta now rest (upsertComment t r)
      (res.1, res.2 + 1)

/-- The classify job handler (`src/utils/queue.js` lines 90-192): on a
successful service call, run the comment loop, then update the video's
`comment_classified_at` to `NOW()` only when at least one comment was
persisted; a thrown service call propagates (job failed, nothing written). -/
def classifyJob (v : String) (meta : String → Option YtMeta) (now : Nat)
    (resp : Except Unit (List ClassifyEntry)) (st : Store) : JobResult Nat :=
  match resp with
  | Except.error _ => JobResult.failed st
  | Except.ok entries =>
    let res := classifyLoop v meta now entries st.comments
    JobResult.completed
      { st with
        comments := res.1
        watermark := if res.2 > 0 then some now else st.watermark }
      res.2

/-- The positive-ratio computation (`src/utils/queue.js` lines 15-26): over
the video's rows with `is_filtered = false` and `comment_type ∈ \x7b1, 2\x7d`,
`null` when there are none, else `Math.round(positive / total * 1000) / 10`
(JS numbers taken as exact rationals). -/
def calculatePositiveRatio (v : String) (comments : List CommentRecord) : Option ℚ :=
  let rows := comments.filter (fun c =>
    c.video_id == v && c.is_filtered == false &&
      (c.comment_type == 1 || c.comment_type == 2))
  if rows.length = 0 then none
  else
    let positive := (rows.filter (fun c => c.comment_type == 1)).length
    some ((round ((positive : ℚ) / (rows.length : ℚ) * 1000) : ℚ) / 10)

/-- Lines 52-55 of `src/utils/queue.js`: `let output = n8nRes.data.output;
if (output === undefined) output = n8nRes.data;`. `none` models the
`TypeError` thrown when `data` is `null`. -/
def pickOutput (data : Json) : Option Json :=
  match jsProp data "output" with
  | none => none
  | some none => some data
  | some (some v) => some v

/-- Lines 57-67 of `src/utils/queue.js`: when the picked output is a string,
`JSON.parse` it; if the parse throws, substitute the synthetic object
`\x7b summary_title: "분석 결과", summary: JSON.stringify(output) \x7d`
(note: `JSON.stringify` of the raw string, i.e. the quoted form). -/
def parsedOutputOf (parse : String → Option Json) (data : Json) : Option Json :=
  match pickOutput data with
  | none => none
  | some (Json.str s) =>
    some (match parse s with
      | some p => p
      | none => Json.obj
          [("summary_title", Json.str "분석 결과"),
           ("summary", Json.str (stringify (Json.str s)))])
  | some v => some v

/-- Line 70 of `src/utils/queue.js`:
`parsedOutput.summary_title || "분석 결과"` — the field when truthy, the
default when absent or falsy; `none` models the `TypeError` when
`parsedOutput` is `null`. -/
def summaryTitleOf (p : Json) : Option Json :=
  match jsProp p "summary_title" with
  | none => none
  | some (some t) => some (if jsTruthy t then t else Json.str "분석 결과")
  | some none => some (Json.str "분석 결과")

/-- The analysis job handler (`src/utils/queue.js` lines 45-88): normalize
the service response, extract `summary_title`, serialize the normalized
payload as the summary body, recompute the positive ratio from the store,
and append one `"Comment_summary"` row. A thrown service call or a
`TypeError` during normalization fails the job with nothing written. -/
def analysisJob (parse : String → Option Json) (v : String) (now : Nat)
    (resp : Except Unit Json) (st : Store) : JobResult SummaryRow :=
  match resp with
  | Except.error _ => JobResult.failed st
  | Except.ok data =>
    match parsedOutputOf parse data with
    | none => JobResult.failed st
    | some p =>
      match summaryTitleOf p with
      | none => JobResult.failed st
      | some title =>
        let row : SummaryRow :=
          { video_id := v
            summary := stringify p
            summary_title := title
            positive_ratio := calculatePositiveRatio v st.comments
            created_at := now }
        JobResult.completed { st with summaries := st.summaries ++ [row] } row

/-- Step 1 of the filter handler (`src/utils/queue.js` lines 197-202):
`UPDATE "Comment" SET is_filtered = false WHERE video_id = $1`. -/
def resetFiltered (v : String) (t : List CommentRecord) : List CommentRecord :=
  t.map (fun r => if r.video_id == v then { r with is_filtered := false } else r)

/-- The filter handler's entry loop (`src/utils/queue.js` lines 220-275).
For each response entry: if a row with that `youtube_comment_id` exists for
this video, update only its `is_filtered` flag (`c.is_filtered === 1`);
otherwise look up metadata (failure skips the entry) and insert a fresh row
with `comment_type = 0`. The insert carries no `ON CONFLICT` clause, so when
a row with the same `youtube_comment_id` exists under another video the
unique index rejects it and the surrounding catch skips the entry. -/
def filterLoop (v : String) (meta : String → Option YtMeta) (now : Nat) :
    List FilterEntry → List CommentRecord → List CommentRecord
  | [], t => t
  | c :: rest, t =>
    if t.any (fun r => r.youtube_comment_id == c.id && r.video_id == v) then
      filterLoop v meta now rest
        (t.map (fun r =>
          if r.youtube_comment_id == c.id && r.video_id == v then
            { r with is_filtered := c.is_filtered == 1 }
          else r))
    else
      match meta c.id with
      | none => filterLoop v meta now rest t
      | some m =>
        if t.any (fun r => r.youtube_comment_id == c.id) then
          filterLoop v meta now rest t
        else
          filterLoop v meta now rest (t ++
            [{ youtube_comment_id := c.id
               author_name := m.authorDisplayName
               author_id := m.authorChannelId
               comment := c.text
               comment_type := 0
               comment_date := m.publishedAt
               is_parent := m.parentId.isNone
               video_id := v
               is_filtered := c.is_filtered == 1
               created_at := now
               updated_at := now }])

/-- The filter job handler (`src/utils/queue.js` lines 194-279): reset
`is_filtered` for the whole video, then call the service; a thrown call
fails the job (the reset has already committed), otherwise run the entry
loop. -/
def filterJob (v : String) (meta : String → Option YtMeta) (now : Nat)
    (resp : Except Unit (List FilterEntry)) (st : Store) : JobResult Unit :=
  let st1 := { st with comments := resetFiltered v st.comments }
  match resp with
  | Except.error _ => JobResult.failed st1
  | Except.ok entries =>
    JobResult.completed
      { st1 with comments := filterLoop v meta now entries st1.comments } ()

/-- Lifecycle states of a queued job as the spec's data model defines them
(waiting → active → completed | failed); the queue broker owns the state. -/
inductive JobState where
  | waiting
  | active
  | completed
  | failed
deriving Repr, DecidableEq

/-- A job record held by the queue: the queue-assigned id, its current
state, and the enqueue payload fields the routes set
(`jobType ∈ \x7b analysis, classify, filter \x7d`, the video id). -/
structure QueueJob where
  id : String
  state : JobState
  jobType : String
  videoId : String
deriving Repr, DecidableEq

/-- `Job.fromId(n8nQueue, job_id)`: look the job up in the queue by id. -/
def jobFromId (q : List QueueJob) (jid : String) : Option QueueJob :=
  q.find? (fun j => j.id == jid)

/-- The HTTP response of a status route: status code, `success` flag, and
the `status`/`job_id`/`video_id` body fields when present. -/
structure StatusResponse where
  httpStatus : Nat
  success : Bool
  status : Option JobState
  job_id : Option String
  video_id : Option String
deriving Repr, DecidableEq

/-- The status routes (`src/routes/videos.js` lines 1357-1383 and
1935-1956, identical logic): look the job up by id; 404 with
`success: false` when absent, else 200 with the job's state. The route only
reads, so the queue is returned unchanged. -/
def statusRoute (q : List QueueJob) (vid jid : String) :
    List QueueJob × StatusResponse :=
  match jobFromId q jid with
  | none => (q, { httpStatus := 404, success := false, status := none,
                  job_id := none, video_id := none })
  | some j => (q, { httpStatus := 200, success := true, status := some j.state,
                    job_id := some jid, video_id := some vid })

/-- The HTTP response of an enqueue route. -/
structure EnqueueResponse where
  httpStatus : Nat
  success : Bool
  job_id : Option String
deriving Repr, DecidableEq

/-- `n8nQueue.add(...)`: append one waiting job record with the
queue-assigned id. -/
def queueAdd (q : List QueueJob) (newId jobType vid : String) : List QueueJob :=
  q ++ [{ id := newId, state := JobState.waiting, jobType := jobType, videoId := vid }]

/-- POST `/videos/:video_id/comments/analysis` (`src/routes/videos.js`
lines 1292-1313): add the job and answer 200 with its id; when the add
throws (`addOk = false`, broker unreachable) answer 500 with no job
appended. -/
def analysisEnqueueRoute (addOk : Bool) (newId : String) (q : List QueueJob)
    (vid : String) : List QueueJob × EnqueueResponse :=
  if addOk then
    (queueAdd q newId "analysis" vid,
     { httpStatus := 200, success := true, job_id := some newId })
  else (q, { httpStatus := 500, success := false, job_id := none })

/-- POST `/videos/:video_id/comments/classify` (`src/routes/videos.js`
lines 1858-1892): 500 before touching the queue when `GOOGLE_API_KEY` is
unset; otherwise read the stored watermark (read-only) and add the job. -/
def classifyEnqueueRoute (addOk : Bool) (newId : String) (apiKey : Option String)
    (q : List QueueJob) (vid : String) : List QueueJob × EnqueueResponse :=
  match apiKey with
  | none => (q, { httpStatus := 500, success := false, job_id := none })
  | some _ =>
    if addOk then
      (queueAdd q newId "classify" vid,
       { httpStatus := 200, success := true, job_id := some newId })
    else (q, { httpStatus := 500, success := false, job_id := none })

/-- POST `/videos/:video_id/comments/filter` (`src/routes/videos.js` lines
2192-2227): 400 before touching the queue when `filtering_keyword` is
missing or falsy (empty string); otherwise add the job. -/
def filterEnqueueRoute (addOk : Bool) (newId : String) (keyword : Option String)
    (q : List QueueJob) (vid : String) : List QueueJob × EnqueueResponse :=
  match keyword with
  | none => (q, { httpStatus := 400, success := false, job_id := none })
  | some kw =>
    if kw == "" then (q, { httpStatus := 400, success := false, job_id := none })
    else if addOk then
      (queueAdd q newId "filter" vid,
       { httpStatus := 200, success := true, job_id := some newId })
    else (q, { httpStatus := 500, success := false, job_id := none })

/-- The store a job run leaves behind, whatever its outcome. -/
def jobStore {α : Type} : JobResult α → Store
  | JobResult.completed st _ => st
  | JobResult.failed st => st

/-- Whether a job run ended in the completed state. -/
def jobCompleted {α : Type} : JobResult α → Bool
  | JobResult.completed _ _ => true
  | JobResult.failed _ => false

/-- The summary row an analysis run persisted, when it completed. -/
def summaryRowOf : JobResult SummaryRow → Option SummaryRow
  | JobResult.completed _ r => some r
  | JobResult.failed _ => none

/-- C1: for every classify job run, the watermark is unchanged when zero
comments were persisted, is set to `now` (which is ≥ the previous value
whenever real time is monotone) when at least one was, and never moves
backward. -/
theorem classify_watermark_monotone (v : String) (meta : String → Option YtMeta)
    (now : Nat) (entries : List ClassifyEntry) (st st' : Store) (n : Nat)
    (h : classifyJob v meta now (Except.ok entries) st = JobResult.completed st' n)
    (hnow : ∀ t, st.watermark = some t → t ≤ now) :
    (n = 0 → st'.watermark = st.watermark) ∧
    (0 < n → st'.watermark = some now) ∧
    (∀ t t', st.watermark = some t → st'.watermark = some t' → t ≤ t') := by
  simp only [classifyJob] at h
  injection h with h1 h2
  subst h1
  subst h2
  refine ⟨fun h0 => ?_, fun hpos => ?_, fun t t' ht ht' => ?_⟩
  · simp [h0]
  · simp only [gt_iff_lt]
    rw [if_pos hpos]
  · by_cases hpos : 0 < (classifyLoop v meta now entries st.comments).2
    · simp only [gt_iff_lt, if_pos hpos] at ht'
      injection ht' with ht'
      subst ht'
      exact hnow t ht
    · simp only [gt_iff_lt, if_neg hpos] at ht'
      rw [ht] at ht'
      injection ht' with ht'
      omega

/-- C1 witness: a concrete run persisting one comment advances the
watermark from 5 to 10. -/
theorem classify_watermark_monotone_witness :
    classifyJob "v1"
        (fun _ => some { authorDisplayName := "a", authorChannelId := some "ch",
                         publishedAt := "2024", parentId := none })
        10 (Except.ok [{ id := "c1", text := "nice", comment_type := 1 }])
        { comments := [], watermark := some 5, summaries := [] }
      = JobResult.completed
          { comments := [{ youtube_comment_id := "c1", author_name := "a",
                           author_id := some "ch", comment := "nice",
                           comment_type := 1, comment_date := "2024",
                           is_parent := true, video_id := "v1",
                           is_filtered := false, created_at := 10,
                           updated_at := 10 }],
            watermark := some 10, summaries := [] } 1 ∧
    (1 = 0 → (some 10 : Option Nat) = some 5) ∧
    (0 < 1 → (some 10 : Option Nat) = some 10) := by
  have h : classifyJob "v1"
      (fun _ => some { authorDisplayName := "a", authorChannelId := some "ch",
                       publishedAt := "2024", parentId := none })
      10 (Except.ok [{ id := "c1", text := "nice", comment_type := 1 }])
      { comments := [], watermark := some 5, summaries := [] }
    = JobResult.completed
        { comments := [{ youtube_comment_id := "c1", author_name := "a",
                         author_id := some "ch", comment := "nice",
                         comment_type := 1, comment_date := "2024",
                         is_parent := true, video_id := "v1",
                         is_filtered := false, created_at := 10,
                         updated_at := 10 }],
          watermark := some 10, summaries := [] } 1 := by
    simp [classifyJob, classifyLoop, upsertComment]
  have h2 := classify_watermark_monotone "v1" _ 10 _ _ _ _ h
    (by intro t ht; injection ht with ht; omega)
  exact ⟨h, h2.1, h2.2.1⟩

lemma classifyLoop_of_meta_none (v : String) (meta : String → Option YtMeta)
    (now : Nat) (c : ClassifyEntry) (rest : List ClassifyEntry)
    (t : List CommentRecord) (hc : meta c.id = none) :
    classifyLoop v meta now (c :: rest) t = classifyLoop v meta now rest t := by
  simp [classifyLoop, hc]

lemma classifyLoop_all_meta_none (v : String) (meta : String → Option YtMeta)
    (now : Nat) : ∀ (entries : List ClassifyEntry) (t : List CommentRecord),
    (∀ e ∈ entries, meta e.id = none) →
    classifyLoop v meta now entries t = (t, 0) := by
  intro entries
  induction entries with
  | nil => intro t _; rfl
  | cons c rest ih =>
    intro t hall
    rw [classifyLoop_of_meta_none v meta now c rest t (hall c (by simp))]
    exact ih t (fun e he => hall e (by simp [he]))

/-- C4: a failed metadata lookup skips exactly that comment (the loop on
`c :: rest` equals the loop on `rest`), and when every lookup fails the job
still completes with zero rows created and the watermark untouched. -/
theorem classify_metadata_failure_skips (v : String) (meta : String → Option YtMeta)
    (now : Nat) (c : ClassifyEntry) (rest entries : List ClassifyEntry)
    (t : List CommentRecord) (st : Store)
    (hc : meta c.id = none) (hall : ∀ e ∈ entries, meta e.id = none) :
    classifyLoop v meta now (c :: rest) t = classifyLoop v meta now rest t ∧
    classifyJob v meta now (Except.ok entries) st = JobResult.completed st 0 := by
  refine ⟨classifyLoop_of_meta_none v meta now c rest t hc, ?_⟩
  simp [classifyJob, classifyLoop_all_meta_none v meta now entries st.comments hall]

/-- C4 witness: with a metadata source that always fails, a classify job over
one returned comment completes, writes nothing, and keeps the watermark. -/
theorem classify_metadata_failure_skips_witness :
    ((fun _ : String => (none : Option YtMeta)) "c1" = none) ∧
    (∀ e ∈ [({ id := "c1", text := "nice", comment_type := 1 } : ClassifyEntry)],
      (fun _ : String => (none : Option YtMeta)) e.id = none) ∧
    (classifyLoop "v1" (fun _ => none) 10
        [{ id := "c1", text := "nice", comment_type := 1 },
         { id := "c2", text := "bad", comment_type := 2 }] []
      = classifyLoop "v1" (fun _ => none) 10
        [{ id := "c2", text := "bad", comment_type := 2 }] [] ∧
     classifyJob "v1" (fun _ => none) 10
        (Except.ok [{ id := "c1", text := "nice", comment_type := 1 }])
        { comments := [], watermark := some 5, summaries := [] }
      = JobResult.completed
          { comments := [], watermark := some 5, summaries := [] } 0) :=
  ⟨rfl, by simp,
   classify_metadata_failure_skips "v1" (fun _ => none) 10
     { id := "c1", text := "nice", comment_type := 1 }
     [{ id := "c2", text := "bad", comment_type := 2 }]
     [{ id := "c1", text := "nice", comment_type := 1 }]
     [] { comments := [], watermark := some 5, summaries := [] }
     rfl (by simp)⟩

/-- C7: a thrown classification-service call fails the whole job for all
three job types; classify and analysis leave the store exactly as it was
(in particular the classify watermark is unchanged, since the service call
precedes every write), while filter has already committed its
`is_filtered` reset. -/
theorem service_error_fails_job (v : String) (meta : String → Option YtMeta)
    (parse : String → Option Json) (now : Nat) (e : Unit) (st : Store) :
    classifyJob v meta now (Except.error e) st = JobResult.failed st ∧
    analysisJob parse v now (Except.error e) st = JobResult.failed st ∧
    filterJob v meta now (Except.error e) st
      = JobResult.failed { st with comments := resetFiltered v st.comments } ∧
    (jobStore (classifyJob v meta now (Except.error e) st)).watermark
      = st.watermark := by
  exact ⟨rfl, rfl, rfl, rfl⟩

/-- C8: the status route returns the queue unchanged (pure read), answers
404 with `success: false` for an unknown id, and otherwise answers 200 with
the job's state, which is one of the four lifecycle states. -/
theorem status_route_spec (q : List QueueJob) (vid jid : String) :
    (statusRoute q vid jid).1 = q ∧
    (jobFromId q jid = none →
      (statusRoute q vid jid).2
        = { httpStatus := 404, success := false, status := none,
            job_id := none, video_id := none }) ∧
    (∀ j, jobFromId q jid = some j →
      (statusRoute q vid jid).2
        = { httpStatus := 200, success := true, status := some j.state,
            job_id := some jid, video_id := some vid } ∧
      (j.state = JobState.waiting ∨ j.state = JobState.active ∨
       j.state = JobState.completed ∨ j.state = JobState.failed)) := by
  refine ⟨?_, fun hn => ?_, fun j hj => ⟨?_, ?_⟩⟩
  · unfold statusRoute
    cases h : jobFromId q jid <;> simp
  · simp [statusRoute, hn]
  · simp [statusRoute, hj]
  · cases j.state <;> simp

/-- C8 witness: a two-job queue answers 200/`completed` for a known id and
404 for an unknown one, touching nothing. -/
theorem status_route_spec_witness :
    (jobFromId [({ id := "1", state := JobState.completed, jobType := "analysis",
                   videoId := "v1" } : QueueJob)] "9" = none) ∧
    (jobFromId [({ id := "1", state := JobState.completed, jobType := "analysis",
                   videoId := "v1" } : QueueJob)] "1"
      = some { id := "1", state := JobState.completed, jobType := "analysis",
               videoId := "v1" }) ∧
    (statusRoute [({ id := "1", state := JobState.completed, jobType := "analysis",
                     videoId := "v1" } : QueueJob)] "v1" "9").2.httpStatus = 404 ∧
    (statusRoute [({ id := "1", state := JobState.completed, jobType := "analysis",
                     videoId := "v1" } : QueueJob)] "v1" "1").2
      = { httpStatus := 200, success := true, status := some JobState.completed,
          job_id := some "1", video_id := some "v1" } := by
  have h := status_route_spec
    [({ id := "1", state := JobState.completed, jobType := "analysis",
        videoId := "v1" } : QueueJob)] "v1" "1"
  have h9 := status_route_spec
    [({ id := "1", state := JobState.completed, jobType := "analysis",
        videoId := "v1" } : QueueJob)] "v1" "9"
  refine ⟨by decide, by decide, ?_, ?_⟩
  · rw [h9.2.1 (by decide)]
  · exact (h.2.2 ⟨"1", JobState.completed, "analysis", "v1"⟩ (by decide)).1

/-- C9: for every enqueue request of any of the three job types with the
inputs its route requires (an API key for classify, a non-falsy keyword for
filter): when the broker accepts, exactly one waiting job record is appended
and the route answers 200 with the queue-assigned id; when the add throws,
the caller gets a synchronous error response and the queue is unchanged. -/
theorem enqueue_routes_spec (newId : String) (q : List QueueJob)
    (vid apiKey kw : String) (hkw : kw ≠ "") :
    analysisEnqueueRoute true newId q vid
      = (q ++ [{ id := newId, state := JobState.waiting, jobType := "analysis",
                 videoId := vid }],
         { httpStatus := 200, success := true, job_id := some newId }) ∧
    classifyEnqueueRoute true newId (some apiKey) q vid
      = (q ++ [{ id := newId, state := JobState.waiting, jobType := "classify",
                 videoId := vid }],
         { httpStatus := 200, success := true, job_id := some newId }) ∧
    filterEnqueueRoute true newId (some kw) q vid
      = (q ++ [{ id := newId, state := JobState.waiting, jobType := "filter",
                 videoId := vid }],
         { httpStatus := 200, success := true, job_id := some newId }) ∧
    analysisEnqueueRoute false newId q vid
      = (q, { httpStatus := 500, success := false, job_id := none }) ∧
    classifyEnqueueRoute false newId (some apiKey) q vid
      = (q, { httpStatus := 500, success := false, job_id := none }) ∧
    filterEnqueueRoute false newId (some kw) q vid
      = (q, { httpStatus := 500, success := false, job_id := none }) := by
  refine ⟨rfl, rfl, ?_, rfl, rfl, ?_⟩ <;>
    simp [filterEnqueueRoute, queueAdd, hkw]

/-- C9 witness: concrete enqueue calls for the three routes, succeeding and
failing. -/
theorem enqueue_routes_spec_witness :
    ("노래" ≠ "") ∧
    (analysisEnqueueRoute true "7" [] "v1"
      = ([{ id := "7", state := JobState.waiting, jobType := "analysis",
            videoId := "v1" }],
         { httpStatus := 200, success := true, job_id := some "7" })) ∧
    (filterEnqueueRoute false "7" (some "노래") [] "v1"
      = ([], { httpStatus := 500, success := false, job_id := none })) :=
  have h := enqueue_routes_spec "7" [] "v1" "k" "노래" (by decide)
  ⟨by decide, h.1, h.2.2.2.2.2⟩

lemma upsertComment_filtered_false (t : List CommentRecord) (r : CommentRecord)
    (hr : r.is_filtered = false) :
    ∀ x ∈ upsertComment t r, x.youtube_comment_id = r.youtube_comment_id →
      x.is_filtered = false := by
  intro x hx hk
  by_cases hany : t.any (fun y => y.youtube_comment_id == r.youtube_comment_id)
  · rw [upsertComment, if_pos hany] at hx
    obtain ⟨y, hyt, hy⟩ := List.mem_map.mp hx
    by_cases hb : y.youtube_comment_id == r.youtube_comment_id
    · rw [if_pos hb] at hy
      rw [← hy]
      exact hr
    · rw [if_neg hb] at hy
      subst hy
      exact absurd (beq_iff_eq.mpr hk) hb
  · rw [upsertComment, if_neg hany] at hx
    rcases List.mem_append.mp hx with hx2 | hx2
    · exact absurd (List.any_eq_true.mpr (⟨x, hx2, beq_iff_eq.mpr hk⟩ :
        ∃ y ∈ t, (y.youtube_comment_id == r.youtube_comment_id) = true)) hany
    · rw [List.mem_singleton.mp hx2]
      exact hr

lemma upsertComment_preserves_filtered_false (t : List CommentRecord)
    (r : CommentRecord) (k : String) (hr : r.is_filtered = false)
    (h : ∀ x ∈ t, x.youtube_comment_id = k → x.is_filtered = false) :
    ∀ x ∈ upsertComment t r, x.youtube_comment_id = k → x.is_filtered = false := by
  intro x hx hk
  by_cases hany : t.any (fun y => y.youtube_comment_id == r.youtube_comment_id)
  · rw [upsertComment, if_pos hany] at hx
    obtain ⟨y, hyt, hy⟩ := List.mem_map.mp hx
    by_cases hb : y.youtube_comment_id == r.youtube_comment_id
    · rw [if_pos hb] at hy
      rw [← hy]
      exact hr
    · rw [if_neg hb] at hy
      subst hy
      exact h y hyt hk
  · rw [upsertComment, if_neg hany] at hx
    rcases List.mem_append.mp hx with hx2 | hx2
    · exact h x hx2 hk
    · rw [List.mem_singleton.mp hx2]
      exact hr

lemma classifyLoop_preserves_filtered_false (v : String)
    (meta : String → Option YtMeta) (now : Nat) (k : String) :
    ∀ (entries : List ClassifyEntry) (t : List CommentRecord),
    (∀ x ∈ t, x.youtube_comment_id = k → x.is_filtered = false) →
    ∀ x ∈ (classifyLoop v meta now entries t).1,
      x.youtube_comment_id = k → x.is_filtered = false := by
  intro entries
  induction entries with
  | nil => intro t h; exact h
  | cons c rest ih =>
    intro t h
    unfold classifyLoop
    cases hm : meta c.id with
    | none => exact ih t h
    | some m =>
      exact ih _ (upsertComment_preserves_filtered_false t _ k rfl h)

lemma classifyLoop_establishes_filtered_false (v : String)
    (meta : String → Option YtMeta) (now : Nat) :
    ∀ (entries : List ClassifyEntry) (t : List CommentRecord)
      (c : ClassifyEntry), c ∈ entries → (meta c.id).isSome →
    ∀ x ∈ (classifyLoop v meta now entries t).1,
      x.youtube_comment_id = c.id → x.is_filtered = false := by
  intro entries
  induction entries with
  | nil => intro t c hc; exact absurd hc (List.not_mem_nil c)
  | cons c0 rest ih =>
    intro t c hc hm
    rcases List.mem_cons.mp hc with hc | hc
    · subst hc
      obtain ⟨m, hm⟩ := Option.isSome_iff_exists.mp hm
      unfold classifyLoop
      rw [hm]
      exact classifyLoop_preserves_filtered_false v meta now c.id rest _
        (upsertComment_filtered_false t _ rfl)
    · unfold classifyLoop
      cases hm0 : meta c0.id with
      | none => exact ih t c hc hm
      | some m => exact ih _ c hc hm

/-- C10: when a classify run persists a comment (its metadata lookup
succeeded), every row carrying that external id ends with
`is_filtered = false` — the upsert writes the literal `false` into
`is_filtered` on conflict, erasing any earlier filter flag. -/
theorem classify_erases_filter_flag (v : String) (meta : String → Option YtMeta)
    (now : Nat) (entries : List ClassifyEntry) (st st' : Store) (n : Nat)
    (c : ClassifyEntry)
    (h : classifyJob v meta now (Except.ok entries) st = JobResult.completed st' n)
    (hc : c ∈ entries) (hm : (meta c.id).isSome) :
    ∀ x ∈ st'.comments, x.youtube_comment_id = c.id → x.is_filtered = false := by
  simp only [classifyJob] at h
  injection h with h1 _
  subst h1
  exact classifyLoop_establishes_filtered_false v meta now entries st.comments c hc hm

/-- C10 witness: a re-classified comment that had `is_filtered = true` ends
with `is_filtered = false`. -/
theorem classify_erases_filter_flag_witness :
    classifyJob "v1"
        (fun _ => some { authorDisplayName := "a", authorChannelId := some "ch",
                         publishedAt := "2024", parentId := none })
        10 (Except.ok [{ id := "c1", text := "nice", comment_type := 1 }])
        { comments := [{ youtube_comment_id := "c1", author_name := "old",
                         author_id := none, comment := "oldtext",
                         comment_type := 2, comment_date := "2020",
                         is_parent := false, video_id := "v1",
                         is_filtered := true, created_at := 1,
                         updated_at := 1 }],
          watermark := some 5, summaries := [] }
      = JobResult.completed
          { comments := [{ youtube_comment_id := "c1", author_name := "a",
                           author_id := some "ch", comment := "nice",
                           comment_type := 1, comment_date := "2024",
                           is_parent := true, video_id := "v1",
                           is_filtered := false, created_at := 1,
                           updated_at := 10 }],
            watermark := some 10, summaries := [] } 1 ∧
    (({ id := "c1", text := "nice", comment_type := 1 } : ClassifyEntry)
        ∈ [({ id := "c1", text := "nice", comment_type := 1 } : ClassifyEntry)]) ∧
    (∀ x ∈ [({ youtube_comment_id := "c1", author_name := "a",
               author_id := some "ch", comment := "nice", comment_type := 1,
               comment_date := "2024", is_parent := true, video_id := "v1",
               is_filtered := false, created_at := 1,
               updated_at := 10 } : CommentRecord)],
      x.youtube_comment_id = "c1" → x.is_filtered = false) := by
  have h : classifyJob "v1"
      (fun _ => some { authorDisplayName := "a", authorChannelId := some "ch",
                       publishedAt := "2024", parentId := none })
      10 (Except.ok [{ id := "c1", text := "nice", comment_type := 1 }])
      { comments := [{ youtube_comment_id := "c1", author_name := "old",
                       author_id := none, comment := "oldtext",
                       comment_type := 2, comment_date := "2020",
                       is_parent := false, video_id := "v1",
                       is_filtered := true, created_at := 1,
                       updated_at := 1 }],
        watermark := some 5, summaries := [] }
    = JobResult.completed
        { comments := [{ youtube_comment_id := "c1", author_name := "a",
                         author_id := some "ch", comment := "nice",
                         comment_type := 1, comment_date := "2024",
                         is_parent := true, video_id := "v1",
                         is_filtered := false, created_at := 1,
                         updated_at := 10 }],
          watermark := some 10, summaries := [] } 1 := by
    simp [classifyJob, classifyLoop, upsertComment]
  refine ⟨h, by simp, ?_⟩
  have h2 := classify_erases_filter_flag "v1" _ 10 _ _ _ _
    ({ id := "c1", text := "nice", comment_type := 1 } : ClassifyEntry)
    h (by simp) rfl
  intro x hx hk
  exact h2 x (by simpa using hx) hk

/-- The `"Comment"` table respects the unique index
`Comment_youtube_comment_id_key`: no two rows share a `youtube_comment_id`. -/
def nodupKeys (t : List CommentRecord) : Prop :=
  (t.map (fun x => x.youtube_comment_id)).Nodup

lemma upsertComment_keys (t : List CommentRecord) (r : CommentRecord) :
    (upsertComment t r).map (fun x => x.youtube_comment_id) =
      if t.any (fun x => x.youtube_comment_id == r.youtube_comment_id) then
        t.map (fun x => x.youtube_comment_id)
      else t.map (fun x => x.youtube_comment_id) ++ [r.youtube_comment_id] := by
  by_cases hany : t.any (fun x => x.youtube_comment_id == r.youtube_comment_id)
  · rw [upsertComment, if_pos hany, if_pos hany, List.map_map]
    apply List.map_congr_left
    intro x _
    by_cases hb : x.youtube_comment_id == r.youtube_comment_id
    · simp only [Function.comp_apply, if_pos hb]
      exact (beq_iff_eq.mp hb).symm
    · simp only [Function.comp_apply, if_neg hb]
  · rw [upsertComment, if_neg hany, if_neg hany, List.map_append]
    rfl

lemma upsertComment_nodupKeys (t : List CommentRecord) (r : CommentRecord)
    (h : nodupKeys t) : nodupKeys (upsertComment t r) := by
  unfold nodupKeys at h ⊢
  rw [upsertComment_keys]
  by_cases hany : t.any (fun x => x.youtube_comment_id == r.youtube_comment_id)
  · rwa [if_pos hany]
  · rw [if_neg hany, List.nodup_append]
    refine ⟨h, List.nodup_singleton _, ?_⟩
    intro a ha ha2
    rw [List.mem_singleton] at ha2
    subst ha2
    obtain ⟨x, hx, hxk⟩ := List.mem_map.mp ha
    exact hany (List.any_eq_true.mpr (⟨x, hx, beq_iff_eq.mpr hxk⟩ :
      ∃ y ∈ t, (y.youtube_comment_id == r.youtube_comment_id) = true))

lemma upsertComment_keys_mono (t : List CommentRecord) (r : CommentRecord)
    (k : String) (h : k ∈ t.map (fun x => x.youtube_comment_id)) :
    k ∈ (upsertComment t r).map (fun x => x.youtube_comment_id) := by
  rw [upsertComment_keys]
  split
  · exact h
  · exact List.mem_append_left _ h

lemma upsertComment_key_present (t : List CommentRecord) (r : CommentRecord) :
    r.youtube_comment_id ∈ (upsertComment t r).map (fun x => x.youtube_comment_id) := by
  rw [upsertComment_keys]
  by_cases hany : t.any (fun x => x.youtube_comment_id == r.youtube_comment_id)
  · rw [if_pos hany]
    obtain ⟨x, hx, hxk⟩ := List.any_eq_true.mp hany
    exact List.mem_map.mpr ⟨x, hx, beq_iff_eq.mp hxk⟩
  · rw [if_neg hany]
    exact List.mem_append_right _ (List.mem_singleton.mpr rfl)

lemma classifyLoop_nodupKeys (v : String) (meta : String → Option YtMeta)
    (now : Nat) : ∀ (entries : List ClassifyEntry) (t : List CommentRecord),
    nodupKeys t → nodupKeys (classifyLoop v meta now entries t).1 := by
  intro entries
  induction entries with
  | nil => intro t h; exact h
  | cons c rest ih =>
    intro t h
    unfold classifyLoop
    cases hm : meta c.id with
    | none => exact ih t h
    | some m => exact ih _ (upsertComment_nodupKeys t _ h)

lemma classifyLoop_keys_mono (v : String) (meta : String → Option YtMeta)
    (now : Nat) : ∀ (entries : List ClassifyEntry) (t : List CommentRecord)
    (k : String), k ∈ t.map (fun x => x.youtube_comment_id) →
    k ∈ (classifyLoop v meta now entries t).1.map (fun x => x.youtube_comment_id) := by
  intro entries
  induction entries with
  | nil => intro t k h; exact h
  | cons c rest ih =>
    intro t k h
    unfold classifyLoop
    cases hm : meta c.id with
    | none => exact ih t k h
    | some m => exact ih _ k (upsertComment_keys_mono t _ k h)

lemma classifyLoop_key_present (v : String) (meta : String → Option YtMeta)
    (now : Nat) : ∀ (entries : List ClassifyEntry) (t : List CommentRecord)
    (c : ClassifyEntry), c ∈ entries → (meta c.id).isSome →
    c.id ∈ (classifyLoop v meta now entries t).1.map (fun x => x.youtube_comment_id) := by
  intro entries
  induction entries with
  | nil => intro t c hc; exact absurd hc (List.not_mem_nil c)
  | cons c0 rest ih =>
    intro t c hc hm
    rcases List.mem_cons.mp hc with hc | hc
    · subst hc
      obtain ⟨m, hm⟩ := Option.isSome_iff_exists.mp hm
      unfold classifyLoop
      rw [hm]
      exact classifyLoop_keys_mono v meta now rest _ c.id (upsertComment_key_present t _)
    · unfold classifyLoop
      cases hm0 : meta c0.id with
      | none => exact ih t c hc hm
      | some m => exact ih _ c hc hm

lemma keyCount_eq_one (t : List CommentRecord) (k : String) (h : nodupKeys t)
    (hm : k ∈ t.map (fun x => x.youtube_comment_id)) :
    (t.filter (fun x => x.youtube_comment_id == k)).length = 1 := by
  have heq : (t.filter (fun x => x.youtube_comment_id == k)).length
      = (t.map (fun x => x.youtube_comment_id)).count k := by
    rw [List.count, List.countP_map, ← List.countP_eq_length_filter]
    rfl
  rw [heq]
  exact List.count_eq_one_of_mem h hm

/-- C2: starting from a table respecting the unique index, running the same
classify job twice with the identical response (and the same metadata
outcomes) leaves a table still free of duplicate external ids, with exactly
one row for each persisted comment id. -/
theorem classify_upsert_idempotent (v : String) (meta : String → Option YtMeta)
    (now1 now2 : Nat) (entries : List ClassifyEntry) (st st1 st2 : Store)
    (n1 n2 : Nat) (hnd : nodupKeys st.comments)
    (h1 : classifyJob v meta now1 (Except.ok entries) st = JobResult.completed st1 n1)
    (h2 : classifyJob v meta now2 (Except.ok entries) st1 = JobResult.completed st2 n2) :
    nodupKeys st2.comments ∧
    ∀ c ∈ entries, (meta c.id).isSome →
      (st2.comments.filter (fun x => x.youtube_comment_id == c.id)).length = 1 := by
  simp only [classifyJob] at h1 h2
  injection h1 with h1s _
  injection h2 with h2s _
  subst h1s
  subst h2s
  have hnd1 : nodupKeys (classifyLoop v meta now1 entries st.comments).1 :=
    classifyLoop_nodupKeys v meta now1 entries st.comments hnd
  have hnd2 : nodupKeys (classifyLoop v meta now2 entries
      (classifyLoop v meta now1 entries st.comments).1).1 :=
    classifyLoop_nodupKeys v meta now2 entries _ hnd1
  refine ⟨hnd2, fun c hc hm => ?_⟩
  exact keyCount_eq_one _ c.id hnd2
    (classifyLoop_key_present v meta now2 entries _ c hc hm)

/-- C2 witness: a concrete double run over a two-entry response keeps one
row per external id. -/
theorem classify_upsert_idempotent_witness :
    nodupKeys ([] : List CommentRecord) ∧
    classifyJob "v1"
        (fun _ => some { authorDisplayName := "a", authorChannelId := none,
                         publishedAt := "2024", parentId := none })
        10 (Except.ok [{ id := "c1", text := "x", comment_type := 1 },
                       { id := "c2", text := "y", comment_type := 2 }])
        { comments := [], watermark := none, summaries := [] }
      = JobResult.completed
          { comments := [{ youtube_comment_id := "c1", author_name := "a",
                           author_id := none, comment := "x", comment_type := 1,
                           comment_date := "2024", is_parent := true,
                           video_id := "v1", is_filtered := false,
                           created_at := 10, updated_at := 10 },
                         { youtube_comment_id := "c2", author_name := "a",
                           author_id := none, comment := "y", comment_type := 2,
                           comment_date := "2024", is_parent := true,
                           video_id := "v1", is_filtered := false,
                           created_at := 10, updated_at := 10 }],
            watermark := some 10, summaries := [] } 2 ∧
    classifyJob "v1"
        (fun _ => some { authorDisplayName := "a", authorChannelId := none,
                         publishedAt := "2024", parentId := none })
        20 (Except.ok [{ id := "c1", text := "x", comment_type := 1 },
                       { id := "c2", text := "y", comment_type := 2 }])
        { comments := [{ youtube_comment_id := "c1", author_name := "a",
                         author_id := none, comment := "x", comment_type := 1,
                         comment_date := "2024", is_parent := true,
                         video_id := "v1", is_filtered := false,
                         created_at := 10, updated_at := 10 },
                       { youtube_comment_id := "c2", author_name := "a",
                         author_id := none, comment := "y", comment_type := 2,
                         comment_date := "2024", is_parent := true,
                         video_id := "v1", is_filtered := false,
                         created_at := 10, updated_at := 10 }],
          watermark := some 10, summaries := [] }
      = JobResult.completed
          { comments := [{ youtube_comment_id := "c1", author_name := "a",
                           author_id := none, comment := "x", comment_type := 1,
                           comment_date := "2024", is_parent := true,
                           video_id := "v1", is_filtered := false,
                           created_at := 10, updated_at := 20 },
                         { youtube_comment_id := "c2", author_name := "a",
                           author_id := none, comment := "y", comment_type := 2,
                           comment_date := "2024", is_parent := true,
                           video_id := "v1", is_filtered := false,
                           created_at := 10, updated_at := 20 }],
            watermark := some 20, summaries := [] } 2 ∧
    nodupKeys [({ youtube_comment_id := "c1", author_name := "a",
                  author_id := none, comment := "x", comment_type := 1,
                  comment_date := "2024", is_parent := true, video_id := "v1",
                  is_filtered := false, created_at := 10,
                  updated_at := 20 } : CommentRecord),
               { youtube_comment_id := "c2", author_name := "a",
                 author_id := none, comment := "y", comment_type := 2,
                 comment_date := "2024", is_parent := true, video_id := "v1",
                 is_filtered := false, created_at := 10, updated_at := 20 }] ∧
    ([({ youtube_comment_id := "c1", author_name := "a", author_id := none,
         comment := "x", comment_type := 1, comment_date := "2024",
         is_parent := true, video_id := "v1", is_filtered := false,
         created_at := 10, updated_at := 20 } : CommentRecord),
      { youtube_comment_id := "c2", author_name := "a", author_id := none,
        comment := "y", comment_type := 2, comment_date := "2024",
        is_parent := true, video_id := "v1", is_filtered := false,
        created_at := 10, updated_at := 20 }].filter
        (fun x => x.youtube_comment_id == "c1")).length = 1 := by
  have h1 : classifyJob "v1"
      (fun _ => some { authorDisplayName := "a", authorChannelId := none,
                       publishedAt := "2024", parentId := none })
      10 (Except.ok [{ id := "c1", text := "x", comment_type := 1 },
                     { id := "c2", text := "y", comment_type := 2 }])
      { comments := [], watermark := none, summaries := [] }
    = JobResult.completed
        { comments := [{ youtube_comment_id := "c1", author_name := "a",
                         author_id := none, comment := "x", comment_type := 1,
                         comment_date := "2024", is_parent := true,
                         video_id := "v1", is_filtered := false,
                         created_at := 10, updated_at := 10 },
                       { youtube_comment_id := "c2", author_name := "a",
                         author_id := none, comment := "y", comment_type := 2,
                         comment_date := "2024", is_parent := true,
                         video_id := "v1", is_filtered := false,
                         created_at := 10, updated_at := 10 }],
          watermark := some 10, summaries := [] } 2 := by
    simp [classifyJob, classifyLoop, upsertComment]
  have h2 : classifyJob "v1"
      (fun _ => some { authorDisplayName := "a", authorChannelId := none,
                       publishedAt := "2024", parentId := none })
      20 (Except.ok [{ id := "c1", text := "x", comment_type := 1 },
                     { id := "c2", text := "y", comment_type := 2 }])
      { comments := [{ youtube_comment_id := "c1", author_name := "a",
                       author_id := none, comment := "x", comment_type := 1,
                       comment_date := "2024", is_parent := true,
                       video_id := "v1", is_filtered := false,
                       created_at := 10, updated_at := 10 },
                     { youtube_comment_id := "c2", author_name := "a",
                       author_id := none, comment := "y", comment_type := 2,
                       comment_date := "2024", is_parent := true,
                       video_id := "v1", is_filtered := false,
                       created_at := 10, updated_at := 10 }],
        watermark := some 10, summaries := [] }
    = JobResult.completed
        { comments := [{ youtube_comment_id := "c1", author_name := "a",
                         author_id := none, comment := "x", comment_type := 1,
                         comment_date := "2024", is_parent := true,
                         video_id := "v1", is_filtered := false,
                         created_at := 10, updated_at := 20 },
                       { youtube_comment_id := "c2", author_name := "a",
                         author_id := none, comment := "y", comment_type := 2,
                         comment_date := "2024", is_parent := true,
                         video_id := "v1", is_filtered := false,
                         created_at := 10, updated_at := 20 }],
          watermark := some 20, summaries := [] } 2 := by
    simp [classifyJob, classifyLoop, upsertComment]
  have hnd0 : nodupKeys ([] : List CommentRecord) := List.nodup_nil
  have h3 := classify_upsert_idempotent "v1" _ 10 20 _ _ _ _ _ _ hnd0 h1 h2
  exact ⟨hnd0, h1, h2, h3.1,
    h3.2 { id := "c1", text := "x", comment_type := 1 } (by simp) rfl⟩

/-- The video's non-filtered comments with type 1 or 2 — the population the
ratio is computed over (the claim's "non-filtered comments of type 1 or 2",
and exactly the rows the handler's SELECT returns). -/
def typedRows (v : String) (comments : List CommentRecord) : List CommentRecord :=
  comments.filter (fun c =>
    c.video_id == v && c.is_filtered == false &&
      (c.comment_type == 1 || c.comment_type == 2))

/-- The claim's `positiveCount`. -/
def positiveCount (v : String) (comments : List CommentRecord) : Nat :=
  ((typedRows v comments).filter (fun c => c.comment_type == 1)).length

/-- The claim's `negativeCount`. -/
def negativeCount (v : String) (comments : List CommentRecord) : Nat :=
  ((typedRows v comments).filter (fun c => c.comment_type == 2)).length

lemma typedRows_types (v : String) (comments : List CommentRecord) :
    ∀ x ∈ typedRows v comments, x.comment_type = 1 ∨ x.comment_type = 2 := by
  intro x hx
  have h := (List.mem_filter.mp hx).2
  simp only [Bool.and_eq_true, Bool.or_eq_true, beq_iff_eq] at h
  exact h.2

lemma length_filter_type_split (l : List CommentRecord)
    (h : ∀ x ∈ l, x.comment_type = 1 ∨ x.comment_type = 2) :
    (l.filter (fun c => c.comment_type == 1)).length
      + (l.filter (fun c => c.comment_type == 2)).length = l.length := by
  induction l with
  | nil => rfl
  | cons a l ih =>
    have hrest := fun x hx => h x (List.mem_cons_of_mem a hx)
    have ha := h a (List.mem_cons_self a l)
    have ih2 := ih hrest
    rcases ha with ha | ha
    all_goals simp [List.filter_cons, ha]
    all_goals omega

lemma positive_add_negative (v : String) (comments : List CommentRecord) :
    positiveCount v comments + negativeCount v comments
      = (typedRows v comments).length := by
  unfold positiveCount negativeCount
  exact length_filter_type_split _ (typedRows_types v comments)

lemma calculatePositiveRatio_none_iff (v : String) (comments : List CommentRecord) :
    calculatePositiveRatio v comments = none ↔ typedRows v comments = [] := by
  unfold calculatePositiveRatio typedRows
  by_cases h : (comments.filter (fun c =>
      c.video_id == v && c.is_filtered == false &&
        (c.comment_type == 1 || c.comment_type == 2))).length = 0
  · simp [h, List.length_eq_zero.mp h]
  · simp [h, List.length_eq_zero]

lemma calculatePositiveRatio_some (v : String) (comments : List CommentRecord)
    (hne : typedRows v comments ≠ []) :
    calculatePositiveRatio v comments
      = some ((round (((positiveCount v comments : ℚ) /
            (((positiveCount v comments) : ℚ) + ((negativeCount v comments) : ℚ)))
            * 1000) : ℚ) / 10) := by
  have hlen : (typedRows v comments).length ≠ 0 :=
    fun h0 => hne (List.length_eq_zero.mp h0)
  have hpn : ((positiveCount v comments : ℚ) + (negativeCount v comments : ℚ))
      = ((typedRows v comments).length : ℚ) := by
    rw [← Nat.cast_add]
    exact_mod_cast congrArg (Nat.cast (R := ℚ)) (positive_add_negative v comments)
  rw [hpn]
  unfold calculatePositiveRatio
  unfold typedRows at hlen ⊢
  simp only [if_neg hlen]
  rfl

lemma ratio_bounds (p t : Nat) (hp : p ≤ t) (ht : 0 < t) :
    0 ≤ ((round ((p : ℚ) / (t : ℚ) * 1000) : ℚ) / 10) ∧
    ((round ((p : ℚ) / (t : ℚ) * 1000) : ℚ) / 10) ≤ 100 := by
  have htq : (0 : ℚ) < (t : ℚ) := by exact_mod_cast ht
  have h0 : (0 : ℚ) ≤ (p : ℚ) / (t : ℚ) * 1000 := by positivity
  have h1 : (p : ℚ) / (t : ℚ) * 1000 ≤ 1000 := by
    have hd : (p : ℚ) / (t : ℚ) ≤ 1 := by
      rw [div_le_one htq]
      exact_mod_cast hp
    nlinarith
  have hr0 : (0 : ℤ) ≤ round ((p : ℚ) / (t : ℚ) * 1000) := by
    rw [round_eq]
    exact Int.floor_nonneg.mpr (by linarith)
  have hr1 : round ((p : ℚ) / (t : ℚ) * 1000) ≤ 1000 := by
    rw [round_eq]
    have hf := Int.floor_le ((p : ℚ) / (t : ℚ) * 1000 + 1 / 2)
    have hlt : ((⌊(p : ℚ) / (t : ℚ) * 1000 + 1 / 2⌋ : ℤ) : ℚ) < 1001 := by
      linarith
    have : (⌊(p : ℚ) / (t : ℚ) * 1000 + 1 / 2⌋ : ℤ) < 1001 := by exact_mod_cast hlt
    omega
  constructor
  · apply div_nonneg _ (by norm_num)
    exact_mod_cast hr0
  · rw [div_le_iff₀ (by norm_num : (0:ℚ) < 10)]
    have : ((round ((p : ℚ) / (t : ℚ) * 1000) : ℤ) : ℚ) ≤ 1000 := by
      exact_mod_cast hr1
    linarith

lemma calculatePositiveRatio_bounds (v : String) (comments : List CommentRecord)
    (q : ℚ) (h : calculatePositiveRatio v comments = some q) :
    0 ≤ q ∧ q ≤ 100 := by
  by_cases hne : typedRows v comments = []
  · rw [(calculatePositiveRatio_none_iff v comments).mpr hne] at h
    exact absurd h (by simp)
  · rw [calculatePositiveRatio_some v comments hne] at h
    injection h with h
    subst h
    have hpn := positive_add_negative v comments
    have hlen : 0 < (typedRows v comments).length :=
      Nat.pos_of_ne_zero (fun h0 => hne (List.length_eq_zero.mp h0))
    have hb := ratio_bounds (positiveCount v comments) (typedRows v comments).length
      (by
        have : positiveCount v comments ≤ positiveCount v comments + negativeCount v comments :=
          Nat.le_add_right _ _
        omega) hlen
    have hcast : ((positiveCount v comments : ℚ) + (negativeCount v comments : ℚ))
        = ((typedRows v comments).length : ℚ) := by
      exact_mod_cast congrArg (Nat.cast (R := ℚ)) hpn
    rw [hcast]
    exact hb

/-- C3: every completed analysis run appends exactly one summary row whose
`positive_ratio` is recomputed from the store; it is `null` exactly when the
video has no non-filtered comment of type 1 or 2, otherwise it equals
`round(positive / (positive + negative) * 1000) / 10` and lies in
`[0, 100]`. -/
theorem analysis_positive_ratio (parse : String → Option Json) (v : String)
    (now : Nat) (resp : Except Unit Json) (st st' : Store) (row : SummaryRow)
    (h : analysisJob parse v now resp st = JobResult.completed st' row) :
    st'.summaries = st.summaries ++ [row] ∧
    row.positive_ratio = calculatePositiveRatio v st.comments ∧
    (calculatePositiveRatio v st.comments = none ↔ typedRows v st.comments = []) ∧
    (typedRows v st.comments ≠ [] →
      calculatePositiveRatio v st.comments
        = some ((round (((positiveCount v st.comments : ℚ) /
              ((positiveCount v st.comments : ℚ) + (negativeCount v st.comments : ℚ)))
              * 1000) : ℚ) / 10)) ∧
    (∀ q, calculatePositiveRatio v st.comments = some q → 0 ≤ q ∧ q ≤ 100) := by
  rcases resp with e | data
  · simp only [analysisJob] at h
    exact JobResult.noConfusion h
  · simp only [analysisJob] at h
    split at h
    · exact JobResult.noConfusion h
    · split at h
      · exact JobResult.noConfusion h
      · injection h with h1 h2
        subst h1
        subst h2
        exact ⟨by simp, rfl, calculatePositiveRatio_none_iff v st.comments,
          fun hne => calculatePositiveRatio_some v st.comments hne,
          fun q hq => calculatePositiveRatio_bounds v st.comments q hq⟩

/-- Store rows for the C3 witness: one positive and one negative comment. -/
def ratioWitnessComments : List CommentRecord :=
  [{ youtube_comment_id := "c1", author_name := "a", author_id := none,
     comment := "x", comment_type := 1, comment_date := "d", is_parent := true,
     video_id := "v1", is_filtered := false, created_at := 0, updated_at := 0 },
   { youtube_comment_id := "c3", author_name := "a", author_id := none,
     comment := "z", comment_type := 2, comment_date := "d", is_parent := true,
     video_id := "v1", is_filtered := false, created_at := 0, updated_at := 0 }]

/-- C3 witness: an analysis run over one positive and one negative comment
stores ratio `50`, which matches the recomputation and the bounds. -/
theorem analysis_positive_ratio_witness :
    analysisJob (fun _ => none) "v1" 3
        (Except.ok (Json.obj [("summary_title", Json.str "t"),
                              ("summary", Json.str "s")]))
        { comments := ratioWitnessComments, watermark := none, summaries := [] }
      = JobResult.completed
          { comments := ratioWitnessComments, watermark := none,
            summaries := [{ video_id := "v1",
                            summary := stringify (Json.obj
                              [("summary_title", Json.str "t"),
                               ("summary", Json.str "s")]),
                            summary_title := Json.str "t",
                            positive_ratio := some (50 : ℚ),
                            created_at := 3 }] }
          { video_id := "v1",
            summary := stringify (Json.obj
              [("summary_title", Json.str "t"), ("summary", Json.str "s")]),
            summary_title := Json.str "t",
            positive_ratio := some (50 : ℚ), created_at := 3 } ∧
    some (50 : ℚ) = calculatePositiveRatio "v1" ratioWitnessComments ∧
    ((0 : ℚ) ≤ 50 ∧ (50 : ℚ) ≤ 100) := by
  have hr : calculatePositiveRatio "v1" ratioWitnessComments = some (50 : ℚ) := by
    simp [calculatePositiveRatio, ratioWitnessComments]
    norm_num
  have h : analysisJob (fun _ => none) "v1" 3
      (Except.ok (Json.obj [("summary_title", Json.str "t"),
                            ("summary", Json.str "s")]))
      { comments := ratioWitnessComments, watermark := none, summaries := [] }
    = JobResult.completed
        { comments := ratioWitnessComments, watermark := none,
          summaries := [{ video_id := "v1",
                          summary := stringify (Json.obj
                            [("summary_title", Json.str "t"),
                             ("summary", Json.str "s")]),
                          summary_title := Json.str "t",
                          positive_ratio := some (50 : ℚ),
                          created_at := 3 }] }
        { video_id := "v1",
          summary := stringify (Json.obj
            [("summary_title", Json.str "t"), ("summary", Json.str "s")]),
          summary_title := Json.str "t",
          positive_ratio := some (50 : ℚ), created_at := 3 } := by
    simp [analysisJob, parsedOutputOf, pickOutput, jsProp, summaryTitleOf,
      jsTruthy, hr]
  have h2 := analysis_positive_ratio (fun _ => none) "v1" 3 _ _ _ _ h
  exact ⟨h, h2.2.1, h2.2.2.2.2 50 h2.2.1.symm⟩

/-- The normalized payload as the amended claim describes it: the value
under the response's `output` field when present, otherwise the top-level
value; when that value is a string it is JSON-parsed, and on parse failure
replaced by the synthetic object `\x7b summary_title: "분석 결과",
summary: <the JSON serialization of the raw string> \x7d`. -/
def claimNormalizedPayload (parse : String → Option Json) (data : Json) : Json :=
  let base :=
    match jsProp data "output" with
    | some (some v) => v
    | _ => data
  match base with
  | Json.str s =>
    (parse s).getD (Json.obj
      [("summary_title", Json.str "분석 결과"),
       ("summary", Json.str (stringify (Json.str s)))])
  | v => v

lemma pickOutput_eq_some (data b : Json) (h : pickOutput data = some b) :
    (match jsProp data "output" with
     | some (some v) => v
     | _ => data) = b := by
  unfold pickOutput at h
  cases hdo : jsProp data "output" with
  | none =>
    rw [hdo] at h
    exact Option.noConfusion h
  | some o =>
    rw [hdo] at h
    cases o with
    | none => exact Option.some_inj.mp h
    | some v => exact Option.some_inj.mp h

lemma parsedOutputOf_eq_claim (parse : String → Option Json) (data p : Json)
    (h : parsedOutputOf parse data = some p) :
    p = claimNormalizedPayload parse data := by
  unfold parsedOutputOf at h
  cases hpo : pickOutput data with
  | none =>
    rw [hpo] at h
    exact Option.noConfusion h
  | some b =>
    rw [hpo] at h
    have hbase := pickOutput_eq_some data b hpo
    simp only [claimNormalizedPayload]
    rw [hbase]
    cases b with
    | null => injection h with h; exact h.symm
    | bool bb => injection h with h; exact h.symm
    | str s =>
      injection h with h
      subst h
      cases hps : parse s <;> simp [hps]
    | arr xs => injection h with h; exact h.symm
    | obj fs => injection h with h; exact h.symm

lemma summaryTitleOf_spec (p title : Json) (h : summaryTitleOf p = some title) :
    (∀ t, jsProp p "summary_title" = some (some t) →
      title = (if jsTruthy t then t else Json.str "분석 결과")) ∧
    (jsProp p "summary_title" = some none → title = Json.str "분석 결과") := by
  unfold summaryTitleOf at h
  constructor
  · intro t ht
    rw [ht] at h
    injection h with h
    exact h.symm
  · intro ht
    rw [ht] at h
    injection h with h
    exact h.symm

/-- C6 counterexample to the claim as stated: for the string response
`"hi"` with a failing parse, the persisted summary body serializes a
synthetic object whose `summary` field is the JSON-quoted form `"\"hi\""`,
not the raw string `"hi"`; and a present-but-empty `summary_title` is
replaced by the default (the `||` fallback fires on any falsy value, not
only on absence). -/
theorem analysis_normalization_counterexample :
    (summaryRowOf (analysisJob (fun _ => none) "v1" 0 (Except.ok (Json.str "hi"))
        { comments := [], watermark := none, summaries := [] })).map
        (fun r => r.summary)
      = some (stringify (Json.obj
          [("summary_title", Json.str "분석 결과"),
           ("summary", Json.str (stringify (Json.str "hi")))])) ∧
    stringify (Json.str "hi") ≠ "hi" ∧
    stringify (Json.obj
        [("summary_title", Json.str "분석 결과"),
         ("summary", Json.str (stringify (Json.str "hi")))])
      ≠ stringify (Json.obj
          [("summary_title", Json.str "분석 결과"),
           ("summary", Json.str "hi")]) ∧
    (summaryRowOf (analysisJob (fun _ => none) "v1" 0
        (Except.ok (Json.obj [("summary_title", Json.str "")]))
        { comments := [], watermark := none, summaries := [] })).map
        (fun r => r.summary_title)
      = some (Json.str "분석 결과") ∧
    jsProp (Json.obj [("summary_title", Json.str "")]) "summary_title"
      = some (some (Json.str "")) ∧
    ("분석 결과" : String) ≠ "" := by
  refine ⟨rfl, by decide, by decide, rfl, rfl, by decide⟩

/-- C6 (amended): for every completed analysis run, the normalized payload
is the `output`-or-top-level value, JSON-parsed when it is a string with the
parse failure replaced by `\x7b summary_title: "분석 결과", summary:
<JSON-serialized raw string> \x7d`; the persisted summary body is the JSON
serialization of the full normalized payload, and the persisted
`summary_title` is the payload's `summary_title` field when truthy,
defaulting to "분석 결과" when absent or falsy. -/
theorem analysis_normalization_amended (parse : String → Option Json)
    (v : String) (now : Nat) (data : Json) (st st' : Store) (row : SummaryRow)
    (h : analysisJob parse v now (Except.ok data) st = JobResult.completed st' row) :
    parsedOutputOf parse data = some (claimNormalizedPayload parse data) ∧
    row.summary = stringify (claimNormalizedPayload parse data) ∧
    (∀ t, jsProp (claimNormalizedPayload parse data) "summary_title"
        = some (some t) →
      row.summary_title = (if jsTruthy t then t else Json.str "분석 결과")) ∧
    (jsProp (claimNormalizedPayload parse data) "summary_title" = some none →
      row.summary_title = Json.str "분석 결과") ∧
    st'.summaries = st.summaries ++ [row] := by
  simp only [analysisJob] at h
  split at h
  · exact JobResult.noConfusion h
  · next p hpo =>
    split at h
    · exact JobResult.noConfusion h
    · next title hti =>
      injection h with h1 h2
      subst h1
      subst h2
      have hclaim := parsedOutputOf_eq_claim parse data p hpo
      subst hclaim
      have hts := summaryTitleOf_spec _ _ hti
      exact ⟨hpo, rfl, fun t ht => hts.1 t ht, fun ht => hts.2 ht, by simp⟩

/-- C6 witness: the parse-failure run on the string response `"hi"`
instantiates the amended claim. -/
theorem analysis_normalization_amended_witness :
    analysisJob (fun _ => none) "v1" 0 (Except.ok (Json.str "hi"))
        { comments := [], watermark := none, summaries := [] }
      = JobResult.completed
          { comments := [], watermark := none,
            summaries := [{ video_id := "v1",
                            summary := stringify (claimNormalizedPayload
                              (fun _ => none) (Json.str "hi")),
                            summary_title := Json.str "분석 결과",
                            positive_ratio := none, created_at := 0 }] }
          { video_id := "v1",
            summary := stringify (claimNormalizedPayload
              (fun _ => none) (Json.str "hi")),
            summary_title := Json.str "분석 결과",
            positive_ratio := none, created_at := 0 } ∧
    parsedOutputOf (fun _ => none) (Json.str "hi")
      = some (claimNormalizedPayload (fun _ => none) (Json.str "hi")) := by
  have h : analysisJob (fun _ => none) "v1" 0 (Except.ok (Json.str "hi"))
      { comments := [], watermark := none, summaries := [] }
    = JobResult.completed
        { comments := [], watermark := none,
          summaries := [{ video_id := "v1",
                          summary := stringify (claimNormalizedPayload
                            (fun _ => none) (Json.str "hi")),
                          summary_title := Json.str "분석 결과",
                          positive_ratio := none, created_at := 0 }] }
        { video_id := "v1",
          summary := stringify (claimNormalizedPayload
            (fun _ => none) (Json.str "hi")),
          summary_title := Json.str "분석 결과",
          positive_ratio := none, created_at := 0 } := by
    simp [analysisJob, parsedOutputOf, pickOutput, jsProp, summaryTitleOf,
      jsTruthy, calculatePositiveRatio, claimNormalizedPayload]
  have h2 := analysis_normalization_amended (fun _ => none) "v1" 0
    (Json.str "hi") _ _ _ h
  exact ⟨h, h2.1⟩

/-- Rows `r` (before) and `s` (after) agree on every column except possibly
`is_filtered` — the frame the filter handler's UPDATE statements preserve. -/
def sameExceptFiltered (r s : CommentRecord) : Prop :=
  s.youtube_comment_id = r.youtube_comment_id ∧ s.author_name = r.author_name ∧
  s.author_id = r.author_id ∧ s.comment = r.comment ∧
  s.comment_type = r.comment_type ∧ s.comment_date = r.comment_date ∧
  s.is_parent = r.is_parent ∧ s.video_id = r.video_id ∧
  s.created_at = r.created_at ∧ s.updated_at = r.updated_at

lemma sameExceptFiltered_refl (r : CommentRecord) : sameExceptFiltered r r :=
  ⟨rfl, rfl, rfl, rfl, rfl, rfl, rfl, rfl, rfl, rfl⟩

lemma sameExceptFiltered_trans {r s t : CommentRecord}
    (h1 : sameExceptFiltered r s) (h2 : sameExceptFiltered s t) :
    sameExceptFiltered r t := by
  obtain ⟨a1, a2, a3, a4, a5, a6, a7, a8, a9, a10⟩ := h1
  obtain ⟨b1, b2, b3, b4, b5, b6, b7, b8, b9, b10⟩ := h2
  exact ⟨b1.trans a1, b2.trans a2, b3.trans a3, b4.trans a4, b5.trans a5,
    b6.trans a6, b7.trans a7, b8.trans a8, b9.trans a9, b10.trans a10⟩

lemma sameExceptFiltered_set_filtered (r : CommentRecord) (b : Bool) :
    sameExceptFiltered r { r with is_filtered := b } :=
  ⟨rfl, rfl, rfl, rfl, rfl, rfl, rfl, rfl, rfl, rfl⟩

lemma filterLoop_length (v : String) (meta : String → Option YtMeta) (now : Nat) :
    ∀ (es : List FilterEntry) (t : List CommentRecord),
    t.length ≤ (filterLoop v meta now es t).length := by
  intro es
  induction es with
  | nil => intro t; exact Nat.le_refl _
  | cons c rest ih =>
    intro t
    unfold filterLoop
    split
    · exact Nat.le_trans (Nat.le_of_eq (List.length_map t _).symm) (ih _)
    · split
      · exact ih t
      · split
        · exact ih t
        · refine Nat.le_trans (Nat.le_succ t.length) ?_
          refine Nat.le_trans (Nat.le_of_eq ?_) (ih _)
          simp

lemma filterLoop_frame (v : String) (meta : String → Option YtMeta) (now : Nat) :
    ∀ (es : List FilterEntry) (t : List CommentRecord) (i : Nat) (r : CommentRecord),
    t[i]? = some r →
    ∃ s, (filterLoop v meta now es t)[i]? = some s ∧ sameExceptFiltered r s ∧
      (r.video_id ≠ v → s = r) ∧
      (r.youtube_comment_id ∉ es.map (fun c => c.id) →
        s.is_filtered = r.is_filtered) := by
  intro es
  induction es with
  | nil =>
    intro t i r hr
    exact ⟨r, hr, sameExceptFiltered_refl r, fun _ => rfl, fun _ => rfl⟩
  | cons c rest ih =>
    intro t i r hr
    unfold filterLoop
    split
    · have hr2 : (t.map (fun x =>
          if x.youtube_comment_id == c.id && x.video_id == v then
            { x with is_filtered := c.is_filtered == 1 }
          else x))[i]?
          = some (if r.youtube_comment_id == c.id && r.video_id == v then
              { r with is_filtered := c.is_filtered == 1 } else r) := by
        rw [List.getElem?_map, hr]
        rfl
      by_cases hc : (r.youtube_comment_id == c.id && r.video_id == v) = true
      · rw [if_pos hc] at hr2
        obtain ⟨s, hs, hfr, hvid, hunm⟩ := ih _ i _ hr2
        rw [Bool.and_eq_true, beq_iff_eq, beq_iff_eq] at hc
        refine ⟨s, hs,
          sameExceptFiltered_trans (sameExceptFiltered_set_filtered r _) hfr,
          fun hv => absurd hc.2 hv, fun hm => ?_⟩
        simp only [List.map_cons, List.mem_cons, not_or] at hm
        exact absurd hc.1 hm.1
      · rw [if_neg hc] at hr2
        obtain ⟨s, hs, hfr, hvid, hunm⟩ := ih _ i _ hr2
        refine ⟨s, hs, hfr, hvid, fun hm => ?_⟩
        simp only [List.map_cons, List.mem_cons, not_or] at hm
        exact hunm hm.2
    · split
      · obtain ⟨s, hs, hfr, hvid, hunm⟩ := ih t i r hr
        refine ⟨s, hs, hfr, hvid, fun hm => ?_⟩
        simp only [List.map_cons, List.mem_cons, not_or] at hm
        exact hunm hm.2
      · split
        · obtain ⟨s, hs, hfr, hvid, hunm⟩ := ih t i r hr
          refine ⟨s, hs, hfr, hvid, fun hm => ?_⟩
          simp only [List.map_cons, List.mem_cons, not_or] at hm
          exact hunm hm.2
        · obtain ⟨hi, _⟩ := List.getElem?_eq_some.mp hr
          have hr3 : ∀ (l : List CommentRecord), (t ++ l)[i]? = some r := by
            intro l
            rw [List.getElem?_append, if_pos hi]
            exact hr
          obtain ⟨s, hs, hfr, hvid, hunm⟩ := ih _ i r (hr3 _)
          refine ⟨s, hs, hfr, hvid, fun hm => ?_⟩
          simp only [List.map_cons, List.mem_cons, not_or] at hm
          exact hunm hm.2

lemma filterLoop_mention (v : String) (meta : String → Option YtMeta) (now : Nat) :
    ∀ (es : List FilterEntry) (t : List CommentRecord) (i : Nat)
      (r : CommentRecord) (c : FilterEntry),
    (es.map (fun c => c.id)).Nodup → t[i]? = some r → c ∈ es →
    r.video_id = v → r.youtube_comment_id = c.id →
    ∃ s, (filterLoop v meta now es t)[i]? = some s ∧
      s.is_filtered = (c.is_filtered == 1) := by
  intro es
  induction es with
  | nil =>
    intro t i r c _ _ hc
    exact absurd hc (List.not_mem_nil c)
  | cons c0 rest ih =>
    intro t i r c hnd hr hc hv hid
    simp only [List.map_cons, List.nodup_cons] at hnd
    rcases List.mem_cons.mp hc with hceq | hcrest
    · subst hceq
      have hany : (t.any fun x =>
          x.youtube_comment_id == c.id && x.video_id == v) = true := by
        refine List.any_eq_true.mpr ⟨r, List.getElem?_mem hr, ?_⟩
        rw [Bool.and_eq_true, beq_iff_eq, beq_iff_eq]
        exact ⟨hid, hv⟩
      unfold filterLoop
      rw [if_pos hany]
      have hr2 : (t.map (fun x =>
          if x.youtube_comment_id == c.id && x.video_id == v then
            { x with is_filtered := c.is_filtered == 1 }
          else x))[i]?
          = some { r with is_filtered := c.is_filtered == 1 } := by
        rw [List.getElem?_map, hr]
        simp
        intro hcontra
        exact absurd hv (hcontra hid)
      obtain ⟨s, hs, hfr, _, hunm⟩ := filterLoop_frame v meta now rest _ i _ hr2
      refine ⟨s, hs, ?_⟩
      have : s.is_filtered = ({ r with is_filtered := c.is_filtered == 1 }
          : CommentRecord).is_filtered := by
        apply hunm
        show r.youtube_comment_id ∉ _
        rw [hid]
        exact hnd.1
      exact this
    · have hne : r.youtube_comment_id ≠ c0.id := by
        rw [hid]
        intro heq
        exact hnd.1 (heq ▸ List.mem_map.mpr ⟨c, hcrest, rfl⟩)
      unfold filterLoop
      split
      · have hr2 : (t.map (fun x =>
            if x.youtube_comment_id == c0.id && x.video_id == v then
              { x with is_filtered := c0.is_filtered == 1 }
            else x))[i]? = some r := by
          rw [List.getElem?_map, hr]
          simp
          intro h1 h2
          exact absurd h1 hne
        exact ih _ i r c hnd.2 hr2 hcrest hv hid
      · split
        · exact ih t i r c hnd.2 hr hcrest hv hid
        · split
          · exact ih t i r c hnd.2 hr hcrest hv hid
          · obtain ⟨hi, _⟩ := List.getElem?_eq_some.mp hr
            have hr3 : ∀ (l : List CommentRecord), (t ++ l)[i]? = some r := by
              intro l
              rw [List.getElem?_append, if_pos hi]
              exact hr
            exact ih _ i r c hnd.2 (hr3 _) hcrest hv hid

lemma filterLoop_appended (v : String) (meta : String → Option YtMeta) (now : Nat) :
    ∀ (es : List FilterEntry) (t : List CommentRecord) (j : Nat)
      (s : CommentRecord),
    t.length ≤ j → (filterLoop v meta now es t)[j]? = some s →
    s.comment_type = 0 ∧ s.video_id = v := by
  intro es
  induction es with
  | nil =>
    intro t j s hj hs
    unfold filterLoop at hs
    obtain ⟨hlt, _⟩ := List.getElem?_eq_some.mp hs
    omega
  | cons c rest ih =>
    intro t j s hj hs
    unfold filterLoop at hs
    split at hs
    · exact ih _ j s (by rw [List.length_map]; exact hj) hs
    · split at hs
      · exact ih t j s hj hs
      · split at hs
        · exact ih t j s hj hs
        · rcases Nat.lt_or_ge j (t.length + 1) with hlt | hge
          · have hjeq : j = t.length := by omega
            subst hjeq
            obtain ⟨s2, hs2, hfr2, _, _⟩ := filterLoop_frame v meta now rest _
              t.length _ (List.getElem?_concat_length t _)
            have hss : some s2 = some s := hs2.symm.trans hs
            injection hss with hss
            subst hss
            exact ⟨hfr2.2.2.2.2.1, hfr2.2.2.2.2.2.2.2.1⟩
          · exact ih _ j s (by simp; omega) hs

lemma filterLoop_insert_present (v : String) (meta : String → Option YtMeta)
    (now : Nat) :
    ∀ (es : List FilterEntry) (t : List CommentRecord) (c : FilterEntry)
      (m : YtMeta),
    (es.map (fun c => c.id)).Nodup → c ∈ es → meta c.id = some m →
    (∀ x ∈ t, x.youtube_comment_id ≠ c.id) →
    ∃ s ∈ filterLoop v meta now es t, s.youtube_comment_id = c.id ∧
      s.comment_type = 0 ∧ s.video_id = v ∧
      s.is_filtered = (c.is_filtered == 1) := by
  intro es
  induction es with
  | nil =>
    intro t c m _ hc
    exact absurd hc (List.not_mem_nil c)
  | cons c0 rest ih =>
    intro t c m hnd hc hm hno
    simp only [List.map_cons, List.nodup_cons] at hnd
    rcases List.mem_cons.mp hc with hceq | hcrest
    · subst hceq
      have hany1 : (t.any fun x =>
          x.youtube_comment_id == c.id && x.video_id == v) = false := by
        rw [← Bool.not_eq_true, List.any_eq_true]
        rintro ⟨x, hx, hxc⟩
        rw [Bool.and_eq_true, beq_iff_eq] at hxc
        exact hno x hx hxc.1
      have hany2 : (t.any fun x => x.youtube_comment_id == c.id) = false := by
        rw [← Bool.not_eq_true, List.any_eq_true]
        rintro ⟨x, hx, hxc⟩
        rw [beq_iff_eq] at hxc
        exact hno x hx hxc
      unfold filterLoop
      rw [hany1, hm]
      simp only [Bool.false_eq_true, if_false, hany2]
      obtain ⟨s, hs, hfr, _, hunm⟩ := filterLoop_frame v meta now rest
        (t ++ [{ youtube_comment_id := c.id,
                 author_name := m.authorDisplayName,
                 author_id := m.authorChannelId, comment := c.text,
                 comment_type := 0, comment_date := m.publishedAt,
                 is_parent := m.parentId.isNone, video_id := v,
                 is_filtered := c.is_filtered == 1, created_at := now,
                 updated_at := now }]) t.length _
        (List.getElem?_concat_length t _)
      refine ⟨s, List.getElem?_mem hs, ?_, hfr.2.2.2.2.1, hfr.2.2.2.2.2.2.2.1, ?_⟩
      · exact hfr.1
      · rw [hunm hnd.1]
    · have hc0ne : c0.id ≠ c.id := by
        intro heq
        exact hnd.1 (heq ▸ List.mem_map.mpr ⟨c, hcrest, rfl⟩)
      unfold filterLoop
      split
      · refine ih _ c m hnd.2 hcrest hm ?_
        intro x hx
        obtain ⟨y, hy, hyx⟩ := List.mem_map.mp hx
        by_cases hb : y.youtube_comment_id == c0.id && y.video_id == v
        · rw [if_pos hb] at hyx
          subst hyx
          exact hno y hy
        · rw [if_neg hb] at hyx
          subst hyx
          exact hno y hy
      · split
        · exact ih t c m hnd.2 hcrest hm hno
        · split
          · exact ih t c m hnd.2 hcrest hm hno
          · refine ih _ c m hnd.2 hcrest hm ?_
            intro x hx
            rcases List.mem_append.mp hx with hx | hx
            · exact hno x hx
            · rw [List.mem_singleton.mp hx]
              exact hc0ne

lemma resetFiltered_getElem (v : String) (t : List CommentRecord) (i : Nat)
    (r : CommentRecord) (hr : t[i]? = some r) :
    (resetFiltered v t)[i]?
      = some (if r.video_id == v then { r with is_filtered := false } else r) := by
  unfold resetFiltered
  rw [List.getElem?_map, hr]
  rfl

lemma resetFiltered_length (v : String) (t : List CommentRecord) :
    (resetFiltered v t).length = t.length :=
  List.length_map t _

/-- C5 (amended): a completed filter job only grows the table; every
pre-existing row keeps all fields except possibly `is_filtered`; rows of
other videos are untouched; the video's rows not mentioned in the response
(with distinct entry ids) end with `is_filtered = false` from the reset;
the video's mentioned rows get `is_filtered` per the response; appended rows
are this video's with `comment_type = 0`; and an entry with no existing row
anywhere whose metadata lookup succeeds is inserted with `comment_type = 0`
and `is_filtered` per the response. -/
theorem filter_frame_amended (v : String) (meta : String → Option YtMeta)
    (now : Nat) (entries : List FilterEntry) (st st' : Store)
    (h : filterJob v meta now (Except.ok entries) st = JobResult.completed st' ())
    (hnd : (entries.map (fun c => c.id)).Nodup) :
    st.comments.length ≤ st'.comments.length ∧
    (∀ (i : Nat) (r : CommentRecord), st.comments[i]? = some r →
      ∃ s, st'.comments[i]? = some s ∧ sameExceptFiltered r s ∧
        (r.video_id ≠ v → s = r) ∧
        (r.video_id = v → r.youtube_comment_id ∉ entries.map (fun c => c.id) →
          s.is_filtered = false) ∧
        (∀ c ∈ entries, r.video_id = v → r.youtube_comment_id = c.id →
          s.is_filtered = (c.is_filtered == 1))) ∧
    (∀ (j : Nat) (s : CommentRecord), st.comments.length ≤ j →
      st'.comments[j]? = some s → s.comment_type = 0 ∧ s.video_id = v) ∧
    (∀ c ∈ entries, ∀ m, meta c.id = some m →
      (∀ x ∈ st.comments, x.youtube_comment_id ≠ c.id) →
      ∃ s ∈ st'.comments, s.youtube_comment_id = c.id ∧ s.comment_type = 0 ∧
        s.video_id = v ∧ s.is_filtered = (c.is_filtered == 1)) := by
  simp only [filterJob] at h
  injection h with h1 _
  subst h1
  refine ⟨?_, ?_, ?_, ?_⟩
  · show st.comments.length ≤ (filterLoop v meta now entries
      (resetFiltered v st.comments)).length
    calc st.comments.length
        = (resetFiltered v st.comments).length := (resetFiltered_length v _).symm
      _ ≤ _ := filterLoop_length v meta now entries _
  · intro i r hr
    by_cases hv : r.video_id = v
    · have hres : (resetFiltered v st.comments)[i]?
          = some ({ r with is_filtered := false } : CommentRecord) := by
        rw [resetFiltered_getElem v _ i r hr, if_pos (beq_iff_eq.mpr hv)]
      obtain ⟨s, hs, hfr, _, hunm⟩ :=
        filterLoop_frame v meta now entries _ i _ hres
      refine ⟨s, hs,
        sameExceptFiltered_trans (sameExceptFiltered_set_filtered r false) hfr,
        fun hvv => absurd hv hvv, fun _ hm => ?_, fun c hc _ hid => ?_⟩
      · exact hunm hm
      · obtain ⟨s2, hs2, hflag⟩ := filterLoop_mention v meta now entries _ i _ c
          hnd hres hc hv hid
        have hss : some s2 = some s := hs2.symm.trans hs
        injection hss with hss
        subst hss
        exact hflag
    · have hres : (resetFiltered v st.comments)[i]? = some r := by
        rw [resetFiltered_getElem v _ i r hr, if_neg]
        intro hb
        exact hv (beq_iff_eq.mp hb)
      obtain ⟨s, hs, hfr, hvid, hunm⟩ :=
        filterLoop_frame v meta now entries _ i _ hres
      exact ⟨s, hs, hfr, fun _ => hvid hv, fun hvv => absurd hvv hv,
        fun c hc hvv _ => absurd hvv hv⟩
  · intro j s hj hs
    refine filterLoop_appended v meta now entries _ j s ?_ hs
    rw [resetFiltered_length]
    exact hj
  · intro c hc m hm hno
    refine filterLoop_insert_present v meta now entries _ c m hnd hc hm ?_
    intro x hx
    obtain ⟨y, hy, hyx⟩ := List.mem_map.mp hx
    by_cases hb : y.video_id == v
    · rw [if_pos hb] at hyx
      subst hyx
      exact hno y hy
    · rw [if_neg hb] at hyx
      subst hyx
      exact hno y hy

/-- C5 counterexample to the claim as stated: over a store holding a
record of a different video (`v2`) with `is_filtered = true`, a filter job
for `v1` with an empty response completes and leaves that pre-existing,
unmentioned record with `is_filtered = true` — the claim's final clause
("every pre-existing record not mentioned in the response has
isFiltered=false") quantifies over all records, but the handler's reset and
update statements are scoped to the job's video. -/
theorem filter_video_scope_counterexample :
    filterJob "v1" (fun _ => none) 0 (Except.ok ([] : List FilterEntry))
        { comments := [{ youtube_comment_id := "c9", author_name := "a",
                         author_id := none, comment := "x", comment_type := 1,
                         comment_date := "d", is_parent := true,
                         video_id := "v2", is_filtered := true,
                         created_at := 0, updated_at := 0 }],
          watermark := none, summaries := [] }
      = JobResult.completed
          { comments := [{ youtube_comment_id := "c9", author_name := "a",
                           author_id := none, comment := "x", comment_type := 1,
                           comment_date := "d", is_parent := true,
                           video_id := "v2", is_filtered := true,
                           created_at := 0, updated_at := 0 }],
            watermark := none, summaries := [] } () ∧
    ({ youtube_comment_id := "c9", author_name := "a", author_id := none,
       comment := "x", comment_type := 1, comment_date := "d",
       is_parent := true, video_id := "v2", is_filtered := true,
       created_at := 0, updated_at := 0 } : CommentRecord).is_filtered
      = true := by
  constructor
  · simp [filterJob, resetFiltered, filterLoop]
  · rfl

/-- C5 witness: a filter run whose response re-includes the video's only
comment with `is_filtered: 0` instantiates the amended claim. -/
theorem filter_frame_amended_witness :
    filterJob "v1" (fun _ => none) 5
        (Except.ok [({ id := "c1", text := "t", is_filtered := 0 } : FilterEntry)])
        { comments := [{ youtube_comment_id := "c1", author_name := "a",
                         author_id := none, comment := "x", comment_type := 2,
                         comment_date := "d", is_parent := true,
                         video_id := "v1", is_filtered := true,
                         created_at := 0, updated_at := 0 }],
          watermark := none, summaries := [] }
      = JobResult.completed
          { comments := [{ youtube_comment_id := "c1", author_name := "a",
                           author_id := none, comment := "x", comment_type := 2,
                           comment_date := "d", is_parent := true,
                           video_id := "v1", is_filtered := false,
                           created_at := 0, updated_at := 0 }],
            watermark := none, summaries := [] } () ∧
    (([({ id := "c1", text := "t", is_filtered := 0 } : FilterEntry)].map
        (fun c => c.id)).Nodup) ∧
    (1 : Nat) ≤ 1 := by
  have h : filterJob "v1" (fun _ => none) 5
      (Except.ok [({ id := "c1", text := "t", is_filtered := 0 } : FilterEntry)])
      { comments := [{ youtube_comment_id := "c1", author_name := "a",
                       author_id := none, comment := "x", comment_type := 2,
                       comment_date := "d", is_parent := true,
                       video_id := "v1", is_filtered := true,
                       created_at := 0, updated_at := 0 }],
        watermark := none, summaries := [] }
    = JobResult.completed
        { comments := [{ youtube_comment_id := "c1", author_name := "a",
                         author_id := none, comment := "x", comment_type := 2,
                         comment_date := "d", is_parent := true,
                         video_id := "v1", is_filtered := false,
                         created_at := 0, updated_at := 0 }],
          watermark := none, summaries := [] } () := by
    simp [filterJob, resetFiltered, filterLoop]
  have h2 := filter_frame_amended "v1" (fun _ => none) 5 _ _ _ h (by simp)
  exact ⟨h, by simp, h2.1⟩
